import Mathlib

/-!
Verification of the template-resolution engine of `rjg` (src/cmd/root.go).

The engine walks a JSON-like template value, recognizes directive markers
(`$int`, `$str`, `$arr`, `$obj`, `$oneof`, `$option`, `$i`, `$u8`, ... with
the `$` marker), dispatches to the matching generator, and recursively
resolves nested structures and user variables.

Embedding conventions:
* JSON values are `JVal`; numbers are modelled as `Int` (the templates the
  claims quantify over carry integer-valued numbers; Go's `convertToInt`
  truncation of `float64` is the identity on them).
* Go objects are `map[string]interface{}`; we model an object as an
  association list `List (String × JVal)`.  Go map iteration order is
  unspecified; the list order stands for the iteration order the map
  happens to produce, so every list order is a possible execution.
* Randomness (`math/rand/v2`) is modelled as an infinite stream of raw
  draws `RS : Nat → Nat`; `rand.IntN n` consumes the head draw and returns
  it modulo `n`, and panics (see below) when `n ≤ 0`, as in Go.
* A resolution step yields an `Outcome`: `ok v` (value, `error == nil`),
  `err msg` (a returned `error`), `panic msg` (a Go runtime panic, e.g.
  `rand.IntN` with a non-positive bound or `make` with a negative length),
  or `fuelOut`.  `fuelOut` is a modelling artifact: the Go recursion has no
  depth bound, so the evaluator takes a fuel parameter and reports
  exhaustion; every theorem supplies enough fuel.
-/

/-- JSON-like values, as produced by `encoding/json` unmarshalling into
`interface{}`: `nil`, `bool`, number, `string`, `[]interface{}`,
`map[string]interface{}`. -/
inductive JVal where
  | null
  | bool (b : Bool)
  | num (n : Int)
  | str (s : String)
  | arr (elems : List JVal)
  | obj (fields : List (String × JVal))

/-- Result of one resolution call, `(interface{}, error)` in Go, extended
with the two non-return outcomes: a runtime panic, and fuel exhaustion
(the embedding's stand-in for non-termination). -/
inductive Outcome where
  | ok (v : JVal)
  | err (msg : String)
  | panic (msg : String)
  | fuelOut

/-- Holds exactly on a returned error. -/
def Outcome.isErr : Outcome → Bool
  | .err _ => true
  | _ => false

/-- Holds exactly on a runtime panic. -/
def Outcome.isPanic : Outcome → Bool
  | .panic _ => true
  | _ => false

/-- The randomness source: an infinite stream of raw draws. -/
abbrev RS := Nat → Nat

/-- Drop the first draw of the stream. -/
def rsTail (rs : RS) : RS := fun n => rs (n + 1)

/-- Go's `int` is 64-bit on the targeted platforms and its arithmetic
wraps by two's complement: `wrapInt64 n` is the int64 with the same
residue mod `2^64` as `n`, in `[-2^63, 2^63)`.  Because wrapping is a
ring homomorphism mod `2^64`, wrapping once around a whole sum equals
wrapping after every intermediate Go operation. -/
def wrapInt64 (n : Int) : Int :=
  (n + 9223372036854775808) % 18446744073709551616 - 9223372036854775808

/-- Model of Go `rand.IntN n`: uniform in `[0, n)` obtained by reducing the
head draw modulo `n`, consuming one draw; `none` models the panic
`rand.IntN` raises when `n ≤ 0`. -/
def randIntN (n : Int) (rs : RS) : Option (Int × RS) :=
  if n ≤ 0 then none else some (((rs 0 % n.toNat : Nat) : Int), rsTail rs)

/-- Association-list lookup, distinguishing a missing key (Go
`v, ok := m[k]` with `ok = false`). -/
def jLookup (kvs : List (String × JVal)) (k : String) : Option JVal :=
  (kvs.find? (fun p => p.1 == k)).map (fun p => p.2)

/-- Go map indexing `m[k]`: a missing key yields the zero value `nil`. -/
def jIndex (kvs : List (String × JVal)) (k : String) : JVal :=
  (jLookup kvs k).getD .null

/-- Go map assignment `m[k] = v`: overwrite the existing entry or append. -/
def mapPut (kvs : List (String × JVal)) (k : String) (v : JVal) :
    List (String × JVal) :=
  if kvs.any (fun p => p.1 == k) then
    kvs.map (fun p => if p.1 == k then (k, v) else p)
  else kvs ++ [(k, v)]

/-- Model of `strings.HasPrefix(s, p)`, computed on the character lists so
that it evaluates by kernel reduction. -/
def strHasPfx (s p : String) : Bool :=
  List.isPrefixOf p.data s.data

/-- Drop the first `n` characters of `s`, computed on the character list.
On our ASCII marker this agrees with Go's byte-based slicing. -/
def strDropN (s : String) (n : Nat) : String :=
  String.mk (s.data.drop n)

/-- Model of `strings.TrimPrefix(s, p)`: drop `p` when it leads `s`,
otherwise return `s` unchanged. -/
def trimPfx (p s : String) : String :=
  if strHasPfx s p then strDropN s p.data.length else s

/-- The fixed directive registry, the Go `prefixed` map (source order). -/
def predefinedNames : List String :=
  ["int", "str", "arr", "obj", "oneof", "option", "i", "u8", "u16", "u32",
   "i8", "i16", "i32", "i64", "digit", "bool", "alpha"]

/-- Go `isPredefinedVar`: membership in the directive registry. -/
def isPredefinedVar (value : String) : Bool :=
  predefinedNames.contains value

/-- Go `convertToInt`: a number converts (for `float64`, by truncation —
the identity on the integer-valued numbers modelled here); everything
else reports failure.  `none` is Go's `(0, false)`. -/
def convertToInt : JVal → Option Int
  | .num n => some n
  | _ => none

/-- The generator state: the directive marker (Go field `prefix`, a name
Lean does not allow here) and the user-variable store.  The Go field
`predefinedVars` is always `nil` and never read, so it is omitted. -/
structure Generator where
  pfx : String
  vars : List (String × JVal)

/-- A generator with the default `$` marker over an already-parsed
variable store, as built by Go `newGenerator` (whose JSON parsing of the
raw variable text is outside the resolution engine). -/
def mkGenerator (vars : List (String × JVal)) : Generator := ⟨"$", vars⟩

mutual

/-- Go `fmt.Sprintf("%v", v)` on a resolved JSON-like value (used by the
`str` directive and by `joinAnySlice` to stringify elements): strings
verbatim, `true` and `false`, decimal numbers, `<nil>` for `nil`, slices
as space-separated elements in brackets, maps in `map[k:v ...]` form. -/
def goStr : JVal → String
  | .null => "<nil>"
  | .bool b => if b then "true" else "false"
  | .num n => toString n
  | .str s => s
  | .arr xs => "[" ++ goStrList xs ++ "]"
  | .obj kvs => "map[" ++ goStrFields kvs ++ "]"

/-- Space-separated rendering of slice elements, for `goStr`. -/
def goStrList : List JVal → String
  | [] => ""
  | [x] => goStr x
  | x :: y :: xs => goStr x ++ " " ++ goStrList (y :: xs)

/-- Space-separated `key:value` rendering of map entries, for `goStr`. -/
def goStrFields : List (String × JVal) → String
  | [] => ""
  | [(k, v)] => k ++ ":" ++ goStr v
  | (k, v) :: q :: kvs => k ++ ":" ++ goStr v ++ " " ++ goStrFields (q :: kvs)

end

/-- The dynamic type name `%T` prints for each value, for the
`joinAnySlice` error message. -/
def goTypeName : JVal → String
  | .null => "<nil>"
  | .bool _ => "bool"
  | .num _ => "float64"
  | .str _ => "string"
  | .arr _ => "[]interface \x7b\x7d"
  | .obj _ => "map[string]interface \x7b\x7d"

/-- Go `joinAnySlice`: concatenate the stringified elements of a slice;
`none` models the non-slice error path. -/
def joinAnySlice : JVal → Option String
  | .arr xs => some (String.join (xs.map goStr))
  | _ => none

/-- Rendering of `%q` on the token strings appearing in error messages. -/
def quoteGo (s : String) : String := "\"" ++ s ++ "\""

/-- The Go pattern `if err != nil \x7b return nil, fmt.Errorf("<ctx>: %w", err) \x7d;
return result, nil`: an error gains context, every other outcome passes
through untouched. -/
def wrapErr (ctx : String) : Outcome × RS → Outcome × RS
  | (.err m, rs1) => (.err (ctx ++ m), rs1)
  | o => o

/-- A resolution continuation: what `g.Generate(i, ·)` denotes at the next
recursion depth.  The helpers below mirror one `switch` arm each and take
the continuation as an argument, so that the top-level evaluator is plain
structural recursion on its fuel. -/
abbrev GenF := Int → JVal → RS → Outcome × RS

/-- The `case "int"` arm of `resolveVar`: with a `{min, max}` object whose
bounds convert to integers, draw `rand.IntN(max-min+1) + min`; a failed
conversion (missing key or non-number) is the invalid-bound error, a
non-object parameter the shape error.  `max-min+1` and the final `+ min`
are Go `int` operations and wrap (`wrapInt64`); `rand.IntN` panics when
the wrapped bound is not positive. -/
def intDirective (params : JVal) (rs : RS) : Outcome × RS :=
  match params with
  | .obj pm =>
    match convertToInt (jIndex pm "min"), convertToInt (jIndex pm "max") with
    | some mn, some mx =>
      match randIntN (wrapInt64 (mx - mn + 1)) rs with
      | some (d, rs1) => (.ok (.num (wrapInt64 (d + mn))), rs1)
      | none => (.panic "invalid argument to IntN", rs)
    | _, _ => (.err "invalid min or max value for $int", rs)
  | _ => (.err "$int requires a \x7bmin, max\x7d object", rs)

/-- The element loop of the `case "str"` arm: resolve each element of the
parameter list, stringify it with `%v`, and accumulate the concatenation
in `strBuilder`; any resolution error aborts. -/
def strConcatF (gen : GenF) (i : Int) :
    List JVal → String → RS → Outcome × RS
  | [], acc, rs => (.ok (.str acc), rs)
  | e :: es, acc, rs =>
    match gen i e rs with
    | (.ok r, rs1) => strConcatF gen i es (acc ++ goStr r) rs1
    | o => o

/-- The `case "str"` arm of `resolveVar`: a list parameter is resolved
element by element and concatenated; otherwise the parameter is resolved
as a whole and `joinAnySlice` concatenates the resulting slice (error when
the result is not a slice). -/
def strDirective (gen : GenF) (i : Int) (params : JVal) (rs : RS) :
    Outcome × RS :=
  match params with
  | .arr elems => strConcatF gen i elems "" rs
  | _ =>
    match gen i params rs with
    | (.ok r, rs1) =>
      match joinAnySlice r with
      | some s => (.ok (.str s), rs1)
      | none => (.err ("expected slice but got " ++ goTypeName r), rs1)
    | o => o

/-- The fill loop of the `case "arr"` arm: resolve `val` once per slot,
collecting the results (the accumulator is reversed at the end); any
resolution error aborts. -/
def arrRepeatF (gen : GenF) (i : Int) (v : JVal) :
    Nat → List JVal → RS → Outcome × RS
  | 0, acc, rs => (.ok (.arr acc.reverse), rs)
  | n + 1, acc, rs =>
    match gen i v rs with
    | (.ok r, rs1) => arrRepeatF gen i v n (r :: acc) rs1
    | o => o

/-- The `case "arr"` arm of `resolveVar`: resolve `len` (wrapping its
error), convert it to an integer, require `val` to be present, then build
the slice.  `make([]interface\x7b\x7d, length)` panics when the resolved
length is negative, before any element is produced. -/
def arrDirective (gen : GenF) (i : Int) (params : JVal) (rs : RS) :
    Outcome × RS :=
  match params with
  | .obj pm =>
    match gen i (jIndex pm "len") rs with
    | (.ok rlen, rs1) =>
      match convertToInt rlen with
      | some len =>
        match jLookup pm "val" with
        | some v =>
          if len < 0 then (.panic "makeslice: len out of range", rs1)
          else arrRepeatF gen i v len.toNat [] rs1
        | none => (.err "missing val for $arr", rs1)
      | none => (.err "invalid len value for $arr", rs1)
    | (.err m, rs1) => (.err ("failed to resolve length for $arr: " ++ m), rs1)
    | o => o
  | _ => (.err "$arr requires a \x7blen, val\x7d object", rs)

/-- The `case "obj"` arm of `resolveVar`: over a non-empty list, draw an
index uniformly, require the selected element to be an object, and resolve
it; an empty list or a non-list parameter is the `$obj requires objects`
error. -/
def objDirective (gen : GenF) (i : Int) (params : JVal) (rs : RS) :
    Outcome × RS :=
  match params with
  | .arr elems =>
    if 0 < elems.length then
      match randIntN ((elems.length : Nat) : Int) rs with
      | some (d, rs1) =>
        match elems.getD d.toNat .null with
        | .obj fields => gen i (.obj fields) rs1
        | _ => (.err "$obj must contain a list of objects", rs1)
      | none => (.panic "invalid argument to IntN", rs)
    else (.err "$obj requires objects", rs)
  | _ => (.err "$obj requires objects", rs)

/-- The `case "oneof"` arm of `resolveVar`: over a list parameter, draw an
index uniformly and resolve the selected element.  The length is not
guarded, so an empty list drives `rand.IntN` to its panic. -/
def oneofDirective (gen : GenF) (i : Int) (params : JVal) (rs : RS) :
    Outcome × RS :=
  match params with
  | .arr elems =>
    match randIntN ((elems.length : Nat) : Int) rs with
    | some (d, rs1) => gen i (elems.getD d.toNat .null) rs1
    | none => (.panic "invalid argument to IntN", rs)
  | _ => (.err "$oneof requires a list of values", rs)

/-- The `default:` arm of `resolveVar`: a token carrying the marker is
looked up (marker stripped) in the user-variable store and its stored
value resolved (wrapping errors), or reported as an undefined variable; a
token without the marker is returned as a literal string. -/
def defaultVarBranch (g : Generator) (gen : GenF) (i : Int)
    (vname : String) (rs : RS) : Outcome × RS :=
  if strHasPfx vname g.pfx then
    match jLookup g.vars (strDropN vname g.pfx.data.length) with
    | some stored =>
      wrapErr ("failed to resolve variable " ++ quoteGo vname ++ ": ")
        (gen i stored rs)
    | none => (.err ("undefined variable: " ++ quoteGo vname), rs)
  else (.ok (.str vname), rs)

/-- The named cases of `resolveVar`'s switch on the trimmed token, one
equation per `case`.  The catch-all equation is unreachable from
`resolveVarF`, which enters here only for registered names; it defers to
the `default:` arm so the split is semantics-preserving. -/
def dispatchDirective (g : Generator) (gen : GenF) (i : Int) (d : String)
    (vname : String) (params : JVal) (rs : RS) : Outcome × RS :=
  match d with
  | "int" => intDirective params rs
  | "str" => strDirective gen i params rs
  | "arr" => arrDirective gen i params rs
  | "obj" => objDirective gen i params rs
  | "oneof" => oneofDirective gen i params rs
  | "option" =>
    match params with
    | .null => (.err "$option requires a valid parameter", rs)
    | _ => gen i (.obj [("$oneof", .arr [params])]) rs
  | "i" => (.ok (.num i), rs)
  | "u8" => (.ok (.num (Int.ofNat (rs 0 % 256))), rsTail rs)
  | "u16" => (.ok (.num (Int.ofNat (rs 0 % 65536))), rsTail rs)
  | "u32" => (.ok (.num (Int.ofNat (rs 0 % 4294967296))), rsTail rs)
  | "i8" => (.ok (.num (Int.ofNat (rs 0 % 256) - 128)), rsTail rs)
  | "i16" => (.ok (.num (Int.ofNat (rs 0 % 65536) - 32768)), rsTail rs)
  | "i32" => (.ok (.num (Int.ofNat (rs 0 % 2147483648))), rsTail rs)
  | "i64" => (.ok (.num (Int.ofNat (rs 0 % 9223372036854775808))), rsTail rs)
  | "digit" => (.ok (.num (Int.ofNat (rs 0 % 10))), rsTail rs)
  | "bool" => (.ok (.bool (rs 0 % 2 == 1)), rsTail rs)
  | "alpha" =>
    if rs 0 % 2 == 0 then
      (.ok (.str (String.mk [Char.ofNat (97 + rsTail rs 0 % 26)])),
       rsTail (rsTail rs))
    else
      (.ok (.str (String.mk [Char.ofNat (65 + rsTail rs 0 % 26)])),
       rsTail (rsTail rs))
  | _ => defaultVarBranch g gen i vname rs

/-- Go `Generator.resolveVar`, one recursion level: trim the marker from
the token and switch on the result.  The switch's named cases are exactly
the registry entries, so the dispatch is factored through
`isPredefinedVar`: a registered trimmed token enters `dispatchDirective`,
anything else the `default:` arm. -/
def resolveVarF (g : Generator) (gen : GenF) (i : Int) (vname : String)
    (params : JVal) (rs : RS) : Outcome × RS :=
  let trimmedVar := trimPfx g.pfx vname
  if isPredefinedVar trimmedVar then
    dispatchDirective g gen i trimmedVar vname params rs
  else
    defaultVarBranch g gen i vname rs

/-- The key loop of `Generate`'s map case: for each key in iteration
order, a key whose trimmed form is registered returns that directive's
result immediately (wrapping errors with the generator context); any other
pair has its key and value resolved (wrapping their errors), requires the
resolved key to be a string, and stores the pair in the accumulated map. -/
def genPairsF (g : Generator) (gen : GenF) (i : Int) :
    List (String × JVal) → List (String × JVal) → RS → Outcome × RS
  | [], acc, rs => (.ok (.obj acc), rs)
  | (key, val) :: rest, acc, rs =>
    if isPredefinedVar (trimPfx g.pfx key) then
      wrapErr ("failed to resolve generator " ++ quoteGo key ++ ": ")
        (resolveVarF g gen i key val rs)
    else
      match gen i (.str key) rs with
      | (.ok rkey, rs1) =>
        match gen i val rs1 with
        | (.ok rval, rs2) =>
          match rkey with
          | .str sk => genPairsF g gen i rest (mapPut acc sk rval) rs2
          | _ => (.err "keys must resolve to strings", rs2)
        | (.err m, rs2) =>
          (.err ("failed to resolve val " ++ quoteGo (goStr val) ++ ": " ++ m),
           rs2)
        | o => o
      | (.err m, rs1) =>
        (.err ("failed to resolve key " ++ quoteGo key ++ ": " ++ m), rs1)
      | o => o

/-- Go `Generator.Generate`, one recursion level over the continuation for
the next level: a map enters the key loop, a string is resolved as a
parameterless token (wrapping errors), everything else is returned
unchanged. -/
def generateStep (g : Generator) (gen : GenF) : GenF := fun i t rs =>
  match t with
  | .obj kvs => genPairsF g gen i kvs [] rs
  | .str s =>
    wrapErr ("failed to resolve variable " ++ quoteGo s ++ ": ")
      (resolveVarF g gen i s .null rs)
  | t' => (.ok t', rs)

/-- Go `Generator.Generate` with fuel: `fuel` recursion levels of
`generateStep`, then `fuelOut`.  Defined by `Nat.rec` so that closed
templates evaluate by kernel reduction. -/
def generate (g : Generator) (fuel : Nat) : GenF :=
  Nat.rec (motive := fun _ => GenF) (fun _ _ rs => (.fuelOut, rs))
    (fun _ ih => generateStep g ih) fuel

/-- Go `Generator.resolveVar` with fuel for its recursive resolutions. -/
def resolveVar (g : Generator) (fuel : Nat) (i : Int) (vname : String)
    (params : JVal) (rs : RS) : Outcome × RS :=
  resolveVarF g (generate g fuel) i vname params rs

/-- Unfolding equation for `generate` at zero fuel. -/
theorem generate_zero (g : Generator) (i : Int) (t : JVal) (rs : RS) :
    generate g 0 i t rs = (.fuelOut, rs) := rfl

/-- Unfolding equation for `generate` at positive fuel. -/
theorem generate_succ (g : Generator) (fuel : Nat) :
    generate g (fuel + 1) = generateStep g (generate g fuel) := rfl

/-- The all-zero draw stream, for concrete evaluations. -/
def rs0 : RS := fun _ => 0

/-- Spec-side: resolve every key and every value of an object's pairs in
iteration order, requiring each key to resolve to a string; `none` when
any resolution is not a plain success.  Used to state the no-directive
object case. -/
def resolvePairsSpec (gen : GenF) (i : Int) :
    List (String × JVal) → RS → Option (List (String × JVal) × RS)
  | [], rs => some ([], rs)
  | (k, v) :: rest, rs =>
    match gen i (.str k) rs with
    | (.ok (.str sk), rs1) =>
      match gen i v rs1 with
      | (.ok rv, rs2) =>
        match resolvePairsSpec gen i rest rs2 with
        | some (ps, rs3) => some ((sk, rv) :: ps, rs3)
        | none => none
      | _ => none
    | _ => none

/-- Rebuild a Go map from resolved pairs in iteration order. -/
def buildMap (acc : List (String × JVal)) (ps : List (String × JVal)) :
    List (String × JVal) :=
  ps.foldl (fun m p => mapPut m p.1 p.2) acc

/-- A string the engine treats as pure literal data: it neither carries
the `$` marker nor equals a registry name (an unprefixed registry name
such as `"i"` also reaches the directive switch, because trimming the
marker from it is the identity). -/
def plainStr (s : String) : Bool :=
  !strHasPfx s "$" && !isPredefinedVar s

/-- Pairwise-distinct keys, as Go maps guarantee for unmarshalled JSON
objects. -/
def keysDistinct : List (String × JVal) → Bool
  | [] => true
  | (k, _) :: rest => rest.all (fun p => p.1 != k) && keysDistinct rest

mutual

/-- A template of literal data only: no string anywhere (key or value)
that the engine treats specially, no arrays, and object keys distinct. -/
def plainTemplate : JVal → Bool
  | .null => true
  | .bool _ => true
  | .num _ => true
  | .str s => plainStr s
  | .arr _ => false
  | .obj kvs => keysDistinct kvs && plainFields kvs

/-- Pointwise `plainTemplate` over object fields, keys included. -/
def plainFields : List (String × JVal) → Bool
  | [] => true
  | (k, v) :: rest => plainStr k && plainTemplate v && plainFields rest

end

/-- The claim's template class: no directive-triggering strings and no
nested arrays; a top-level array may still hold such strings or arrays
only as far as `plainTemplate` allows its elements. -/
def noNestedArrTpl : JVal → Bool
  | .arr xs => xs.all plainTemplate
  | t => plainTemplate t

mutual

/-- Fuel sufficient to fully resolve a template: one level per nesting
level of objects (strings and scalars resolve within one level). -/
def jdepth : JVal → Nat
  | .obj kvs => 1 + jdepthFields kvs
  | _ => 1

/-- Fuel sufficient for every value of an object's fields. -/
def jdepthFields : List (String × JVal) → Nat
  | [] => 1
  | (_, v) :: rest => max (jdepth v) (jdepthFields rest)

end

/-- Outcome equivalence up to the context an error message is wrapped in:
equal successes, equal panics, fuel exhaustion on both sides, or errors on
both sides (messages free). -/
def Outcome.equivModErr : Outcome → Outcome → Prop
  | .ok v, .ok w => v = w
  | .err _, .err _ => True
  | .panic a, .panic b => a = b
  | .fuelOut, .fuelOut => True
  | _, _ => False

/-! ## General lemmas -/

theorem wrapErr_snd (ctx : String) (o : Outcome × RS) :
    (wrapErr ctx o).2 = o.2 := by
  rcases o with ⟨o, rs⟩
  cases o <;> rfl

theorem wrapErr_equiv (ctx : String) (o : Outcome × RS) :
    Outcome.equivModErr (wrapErr ctx o).1 o.1 := by
  rcases o with ⟨o, rs⟩
  cases o <;> simp [wrapErr, Outcome.equivModErr]

theorem wrapErr_isErr (ctx : String) (o : Outcome × RS) :
    (wrapErr ctx o).1.isErr = o.1.isErr := by
  rcases o with ⟨o, rs⟩
  cases o <;> rfl

theorem jdepth_pos (t : JVal) : 1 ≤ jdepth t := by
  cases t <;> simp [jdepth]

theorem jdepthFields_pos (kvs : List (String × JVal)) :
    1 ≤ jdepthFields kvs := by
  cases kvs with
  | nil => simp [jdepthFields]
  | cons p rest =>
    rcases p with ⟨k, v⟩
    exact le_trans (jdepth_pos v) (le_max_left _ _)

/-! ## Claims -/

/-- C8: a template value that is an Array, Number, Boolean, or Null is
returned unchanged by resolution for every iteration index (and consumes
no randomness); in particular, directive markers inside a literal array's
elements are not resolved. -/
theorem C8_literals_unchanged (vars : List (String × JVal)) (i : Int)
    (fuel : Nat) (rs : RS) (xs : List JVal) (n : Int) (b : Bool) :
    generate (mkGenerator vars) (fuel + 1) i (.arr xs) rs = (.ok (.arr xs), rs)
    ∧ generate (mkGenerator vars) (fuel + 1) i (.num n) rs = (.ok (.num n), rs)
    ∧ generate (mkGenerator vars) (fuel + 1) i (.bool b) rs
        = (.ok (.bool b), rs)
    ∧ generate (mkGenerator vars) (fuel + 1) i .null rs = (.ok .null, rs) :=
  ⟨rfl, rfl, rfl, rfl⟩

/-- C10: resolving `oneof` with an empty parameter list neither returns a
value nor an error: the random index is drawn over a zero bound, a
`rand.IntN` panic; `obj` by contrast guards the empty list and returns an
error. -/
theorem C10_oneof_empty_panics (vars : List (String × JVal)) (i : Int)
    (fuel : Nat) (rs : RS) :
    generate (mkGenerator vars) (fuel + 2) i (.obj [("$oneof", .arr [])]) rs
      = (.panic "invalid argument to IntN", rs)
    ∧ (generate (mkGenerator vars) (fuel + 2) i
        (.obj [("$obj", .arr [])]) rs).1
        = .err ("failed to resolve generator " ++ quoteGo "$obj" ++
                ": $obj requires objects") :=
  ⟨rfl, rfl⟩

/-- C2: a string template that does not carry the `$` marker and whose
(trivially trimmed) form matches neither a registered directive nor a
stored variable is returned unchanged as a literal; a string that carries
the marker but whose stripped name matches neither a directive nor a
stored variable resolves to an error identifying it as an undefined
variable. -/
theorem C2_string_literal_or_undefined (vars : List (String × JVal))
    (s : String) (i : Int) (fuel : Nat) (rs : RS) :
    (strHasPfx s "$" = false → isPredefinedVar (trimPfx "$" s) = false →
      jLookup vars s = none →
      generate (mkGenerator vars) (fuel + 1) i (.str s) rs
        = (.ok (.str s), rs))
    ∧ (strHasPfx s "$" = true → isPredefinedVar (trimPfx "$" s) = false →
      jLookup vars (trimPfx "$" s) = none →
      generate (mkGenerator vars) (fuel + 1) i (.str s) rs
        = (.err (("failed to resolve variable " ++ quoteGo s ++ ": ") ++
                 ("undefined variable: " ++ quoteGo s)), rs)) := by
  constructor
  · intro h1 h2 _h3
    simp [generate_succ, generateStep, resolveVarF, mkGenerator, h2,
          defaultVarBranch, h1, wrapErr]
  · intro h1 h2 h3
    have ht : trimPfx "$" s = strDropN s "$".data.length := by
      simp [trimPfx, h1]
    rw [ht] at h3
    simp only [String.data] at h3 ⊢
    simp at h3
    simp [generate_succ, generateStep, resolveVarF, mkGenerator, h2,
          defaultVarBranch, h1, h3, wrapErr, String.append_assoc]

/-- C2 witness: the literal case at `"hello"` and the undefined-variable
case at `"$nope"`, both over an empty store. -/
theorem C2_string_literal_or_undefined_witness :
    (strHasPfx "hello" "$" = false ∧
     isPredefinedVar (trimPfx "$" "hello") = false ∧
     jLookup [] "hello" = none ∧
     generate (mkGenerator []) 1 0 (.str "hello") rs0
       = (.ok (.str "hello"), rs0))
    ∧ (strHasPfx "$nope" "$" = true ∧
       isPredefinedVar (trimPfx "$" "$nope") = false ∧
       jLookup [] (trimPfx "$" "$nope") = none ∧
       generate (mkGenerator []) 1 0 (.str "$nope") rs0
         = (.err (("failed to resolve variable " ++ quoteGo "$nope" ++ ": ") ++
                  ("undefined variable: " ++ quoteGo "$nope")), rs0)) :=
  ⟨⟨by decide, by decide, rfl,
    (C2_string_literal_or_undefined [] "hello" 0 0 rs0).1 (by decide)
      (by decide) rfl⟩,
   ⟨by decide, by decide, rfl,
    (C2_string_literal_or_undefined [] "$nope" 0 0 rs0).2 (by decide)
      (by decide) rfl⟩⟩

/-- C3 counterexample: with `min = -2^62` and `max = 2^62` — both exactly
float64-representable, in int64 range, and `min ≤ max` — the Go bound
`max-min+1` is `2^63+1`, which wraps to a negative int64, so `rand.IntN`
panics: no integer in `[min, max]` is returned. -/
theorem C3_counterexample :
    (-4611686018427387904 : Int) ≤ 4611686018427387904
    ∧ (generate (mkGenerator []) 2 0
        (.obj [("$int", .obj [("min", .num (-4611686018427387904)),
                              ("max", .num 4611686018427387904)])])
        rs0).1.isPanic = true
    ∧ (generate (mkGenerator []) 2 0
        (.obj [("$int", .obj [("min", .num (-4611686018427387904)),
                              ("max", .num 4611686018427387904)])])
        rs0).1.isErr = false := by decide

/-- C3 amended: an `int` invocation whose parameter object has int64
bounds `a ≤ b` with a range width `b - a + 1` that fits in int64 yields,
for every draw stream, a number in `[a, b]` (consuming one draw), always
exactly `a` when `a = b`; when the width overflows int64, the wrapped
draw bound is non-positive and the invocation panics instead of
returning a value; a missing or non-numeric bound yields an error. -/
theorem C3_int_range (vars : List (String × JVal)) (pm : List (String × JVal))
    (a b : Int) (i : Int) (fuel : Nat) (rs : RS) :
    (convertToInt (jIndex pm "min") = some a →
     convertToInt (jIndex pm "max") = some b →
     a ≤ b → b - a + 1 ≤ 9223372036854775807 →
     -9223372036854775808 ≤ a → b ≤ 9223372036854775807 →
     ∃ r : Int,
       generate (mkGenerator vars) (fuel + 2) i
           (.obj [("$int", .obj pm)]) rs = (.ok (.num r), rsTail rs)
         ∧ a ≤ r ∧ r ≤ b ∧ (a = b → r = a))
    ∧ (convertToInt (jIndex pm "min") = some a →
     convertToInt (jIndex pm "max") = some b →
     a ≤ b → 9223372036854775807 < b - a + 1 →
     -9223372036854775808 ≤ a → b ≤ 9223372036854775807 →
     generate (mkGenerator vars) (fuel + 2) i (.obj [("$int", .obj pm)]) rs
       = (.panic "invalid argument to IntN", rs))
    ∧ ((convertToInt (jIndex pm "min") = none ∨
        convertToInt (jIndex pm "max") = none) →
       (generate (mkGenerator vars) (fuel + 2) i
           (.obj [("$int", .obj pm)]) rs).1.isErr = true) := by
  have hstep : generate (mkGenerator vars) (fuel + 2) i
      (.obj [("$int", .obj pm)]) rs
      = wrapErr ("failed to resolve generator " ++ quoteGo "$int" ++ ": ")
          (intDirective (.obj pm) rs) := rfl
  refine ⟨?_, ?_, ?_⟩
  · intro hmin hmax hab hwidth hra hrb
    have hw : wrapInt64 (b - a + 1) = b - a + 1 := by
      unfold wrapInt64
      omega
    have hpos : ¬ (b - a + 1 ≤ 0) := by omega
    have hlt : rs 0 % (b - a + 1).toNat < (b - a + 1).toNat :=
      Nat.mod_lt _ (by omega)
    have hwr : wrapInt64 (((rs 0 % (b - a + 1).toNat : Nat) : Int) + a)
        = ((rs 0 % (b - a + 1).toNat : Nat) : Int) + a := by
      unfold wrapInt64
      omega
    have hint : intDirective (.obj pm) rs
        = (.ok (.num (((rs 0 % (b - a + 1).toNat : Nat) : Int) + a)),
           rsTail rs) := by
      simp only [intDirective, hmin, hmax, hw, randIntN]
      rw [if_neg hpos]
      show (Outcome.ok (.num (wrapInt64
          (((rs 0 % (b - a + 1).toNat : Nat) : Int) + a))), rsTail rs) = _
      rw [hwr]
    refine ⟨((rs 0 % (b - a + 1).toNat : Nat) : Int) + a, ?_, by omega,
            by omega, ?_⟩
    · rw [hstep, hint]
      rfl
    · intro hba
      subst hba
      omega
  · intro hmin hmax hab hwidth hra hrb
    have hw : wrapInt64 (b - a + 1) ≤ 0 := by
      unfold wrapInt64
      omega
    rw [hstep]
    simp [intDirective, hmin, hmax, randIntN, hw, wrapErr]
  · intro h
    rw [hstep, wrapErr_isErr]
    rcases h with h | h
    · simp [intDirective, h, Outcome.isErr]
    · cases hmin : convertToInt (jIndex pm "min") <;>
        simp [intDirective, hmin, h, Outcome.isErr]

/-- C3 witness: `min 2, max 5` over the all-zero stream, width 4. -/
theorem C3_int_range_witness :
    convertToInt (jIndex [("min", JVal.num 2), ("max", JVal.num 5)] "min")
      = some 2 ∧
    convertToInt (jIndex [("min", JVal.num 2), ("max", JVal.num 5)] "max")
      = some 5 ∧
    (2 : Int) ≤ 5 ∧ (5 : Int) - 2 + 1 ≤ 9223372036854775807 ∧
    ∃ r : Int,
      generate (mkGenerator []) 2 0
          (.obj [("$int", .obj [("min", .num 2), ("max", .num 5)])]) rs0
        = (.ok (.num r), rsTail rs0)
      ∧ 2 ≤ r ∧ r ≤ 5 ∧ ((2 : Int) = 5 → r = 2) :=
  ⟨rfl, rfl, by decide, by decide,
   (C3_int_range [] [("min", .num 2), ("max", .num 5)] 2 5 0 0 rs0).1
     rfl rfl (by decide) (by decide) (by decide) (by decide)⟩

/-- C4 counterexample: with numeric bounds `min 2 > max 1` the engine does
not return an error — the draw bound `max-min+1` is non-positive and
`rand.IntN` panics. -/
theorem C4_counterexample :
    (generate (mkGenerator []) 2 0
      (.obj [("$int", .obj [("min", .num 2), ("max", .num 1)])])
      rs0).1.isErr = false
    ∧ (generate (mkGenerator []) 2 0
      (.obj [("$int", .obj [("min", .num 2), ("max", .num 1)])])
      rs0).1.isPanic = true := by decide

/-- C4 amended: an `int` invocation with int64 bounds and `min > max`
never returns an invalid-bound error.  When `min - max ≤ 2^63 + 1` (every
pair of bounds below `2^62` in magnitude, in particular), the Go bound
`max-min+1` stays non-positive after wrapping and the draw is a
`rand.IntN` panic; when `min - max > 2^63 + 1`, the bound wraps positive
and the invocation silently returns a value. -/
theorem C4_min_gt_max_panics (vars : List (String × JVal))
    (pm : List (String × JVal)) (a b : Int) (i : Int) (fuel : Nat) (rs : RS) :
    (convertToInt (jIndex pm "min") = some a →
     convertToInt (jIndex pm "max") = some b →
     b < a → a - b ≤ 9223372036854775809 →
     generate (mkGenerator vars) (fuel + 2) i (.obj [("$int", .obj pm)]) rs
       = (.panic "invalid argument to IntN", rs))
    ∧ (convertToInt (jIndex pm "min") = some a →
     convertToInt (jIndex pm "max") = some b →
     b < a → 9223372036854775809 < a - b →
     -9223372036854775808 ≤ b → a ≤ 9223372036854775807 →
     ∃ r : Int,
       generate (mkGenerator vars) (fuel + 2) i (.obj [("$int", .obj pm)]) rs
         = (.ok (.num r), rsTail rs)) := by
  have hstep : generate (mkGenerator vars) (fuel + 2) i
      (.obj [("$int", .obj pm)]) rs
      = wrapErr ("failed to resolve generator " ++ quoteGo "$int" ++ ": ")
          (intDirective (.obj pm) rs) := rfl
  constructor
  · intro hmin hmax hba hdiff
    have hw : wrapInt64 (b - a + 1) ≤ 0 := by
      unfold wrapInt64
      omega
    rw [hstep]
    simp [intDirective, hmin, hmax, randIntN, hw, wrapErr]
  · intro hmin hmax hba hdiff hrb hra
    have hw : ¬ (wrapInt64 (b - a + 1) ≤ 0) := by
      unfold wrapInt64
      omega
    refine ⟨wrapInt64
        (((rs 0 % (wrapInt64 (b - a + 1)).toNat : Nat) : Int) + a), ?_⟩
    rw [hstep]
    simp [intDirective, hmin, hmax, randIntN, hw, wrapErr]

/-- C4 amended witness: `min 2, max 1` panics on every stream, here the
all-zero one; `min 3·2^61, max -3·2^61` wraps the bound positive and
returns a value. -/
theorem C4_min_gt_max_panics_witness :
    convertToInt (jIndex [("min", JVal.num 2), ("max", JVal.num 1)] "min")
      = some 2 ∧
    convertToInt (jIndex [("min", JVal.num 2), ("max", JVal.num 1)] "max")
      = some 1 ∧
    (1 : Int) < 2 ∧ (2 : Int) - 1 ≤ 9223372036854775809 ∧
    generate (mkGenerator []) 2 0
        (.obj [("$int", .obj [("min", .num 2), ("max", .num 1)])]) rs0
      = (.panic "invalid argument to IntN", rs0) ∧
    (∃ r : Int,
      generate (mkGenerator []) 2 0
          (.obj [("$int", .obj [("min", .num 6917529027641081856),
                                ("max", .num (-6917529027641081856))])]) rs0
        = (.ok (.num r), rsTail rs0)) :=
  ⟨rfl, rfl, by decide, by decide,
   (C4_min_gt_max_panics [] [("min", .num 2), ("max", .num 1)] 2 1 0 0
       rs0).1 rfl rfl (by decide) (by decide),
   (C4_min_gt_max_panics []
       [("min", .num 6917529027641081856),
        ("max", .num (-6917529027641081856))]
       6917529027641081856 (-6917529027641081856) 0 0 rs0).2
     rfl rfl (by decide) (by decide) (by decide) (by decide)⟩

/-- C6: `oneof` and `obj` over a parameter list of size `k ≥ 1` return a
resolved form of one of the `k` listed elements — the random draw selects
an index below `k`, and the invocation returns whatever resolving that
element returns; for `k = 1` the selected element is the single listed
one.  `obj` additionally errors when the selected element is not an object
and when the list is empty. -/
theorem C6_oneof_obj_pick (vars : List (String × JVal)) (elems : List JVal)
    (i : Int) (fuel : Nat) (rs : RS) (h : elems ≠ []) :
    (∃ j, j < elems.length ∧
      ∀ v rs1,
        generate (mkGenerator vars) (fuel + 1) i (elems.getD j .null)
            (rsTail rs) = (.ok v, rs1) →
        generate (mkGenerator vars) (fuel + 2) i
            (.obj [("$oneof", .arr elems)]) rs = (.ok v, rs1))
    ∧ (elems.length = 1 →
      ∀ v rs1,
        generate (mkGenerator vars) (fuel + 1) i (elems.getD 0 .null)
            (rsTail rs) = (.ok v, rs1) →
        generate (mkGenerator vars) (fuel + 2) i
            (.obj [("$oneof", .arr elems)]) rs = (.ok v, rs1))
    ∧ (∃ j, j < elems.length ∧
      (∀ fields, elems.getD j .null = .obj fields →
        ∀ v rs1,
          generate (mkGenerator vars) (fuel + 1) i (.obj fields) (rsTail rs)
            = (.ok v, rs1) →
          generate (mkGenerator vars) (fuel + 2) i
              (.obj [("$obj", .arr elems)]) rs = (.ok v, rs1))
      ∧ ((∀ fields, elems.getD j .null ≠ .obj fields) →
        (generate (mkGenerator vars) (fuel + 2) i
            (.obj [("$obj", .arr elems)]) rs).1.isErr = true))
    ∧ (generate (mkGenerator vars) (fuel + 2) i
        (.obj [("$obj", .arr [])]) rs).1.isErr = true := by
  have hpos : 0 < elems.length := List.length_pos.mpr h
  have hc : ∀ m : Nat, ((m : Int)).toNat = m := fun _ => rfl
  have hnle : ¬ ((elems.length : Int) ≤ 0) := by omega
  have hmod : rs 0 % elems.length < elems.length := Nat.mod_lt _ hpos
  have hbr1 : generate (mkGenerator vars) (fuel + 2) i
      (.obj [("$oneof", .arr elems)]) rs
      = wrapErr ("failed to resolve generator " ++ quoteGo "$oneof" ++ ": ")
          (oneofDirective (generate (mkGenerator vars) (fuel + 1)) i
            (.arr elems) rs) := rfl
  have hbr2 : generate (mkGenerator vars) (fuel + 2) i
      (.obj [("$obj", .arr elems)]) rs
      = wrapErr ("failed to resolve generator " ++ quoteGo "$obj" ++ ": ")
          (objDirective (generate (mkGenerator vars) (fuel + 1)) i
            (.arr elems) rs) := rfl
  refine ⟨⟨rs 0 % elems.length, hmod, ?_⟩, ?_,
          ⟨rs 0 % elems.length, hmod, ?_, ?_⟩, ?_⟩
  · intro v rs1 hv
    rw [hbr1]
    simp only [oneofDirective, randIntN, if_neg hnle, hc]
    rw [hv]
    rfl
  · intro hlen v rs1 hv
    rw [hbr1]
    simp only [oneofDirective, randIntN, if_neg hnle, hc]
    rw [hlen]
    simp only [Nat.mod_one]
    rw [hv]
    rfl
  · intro fields hf v rs1 hv
    rw [hbr2]
    simp only [objDirective, randIntN, if_pos hpos, if_neg hnle, hc, hf]
    rw [hv]
    rfl
  · intro hnofields
    rw [hbr2, wrapErr_isErr]
    cases hval : elems.getD (rs 0 % elems.length) .null
    case obj fields => exact absurd hval (hnofields fields)
    all_goals
      simp only [objDirective, randIntN, if_pos hpos, if_neg hnle, hc, hval,
                 Outcome.isErr]
  · rfl

/-- C6 witness: `oneof` over the one-element list `[7]` returns `7`. -/
theorem C6_oneof_obj_pick_witness :
    ([JVal.num 7] ≠ ([] : List JVal)) ∧
    generate (mkGenerator []) 2 0 (.obj [("$oneof", .arr [JVal.num 7])]) rs0
      = (.ok (.num 7), rsTail rs0) :=
  ⟨by simp,
   (C6_oneof_obj_pick [] [JVal.num 7] 0 0 rs0 (by simp)).2.1 rfl (.num 7)
     (rsTail rs0) rfl⟩

/-- C7: for a non-nil parameter `v`, resolving the `option` directive is
resolving the object that wraps `v` in a one-element `oneof` list — the
streams agree and the outcomes agree up to the error-context wrap; in
particular, whenever `v` resolves to a value (after the `oneof` draw),
`option` returns exactly that value. -/
theorem C7_option_equiv_oneof (vars : List (String × JVal)) (v : JVal)
    (i : Int) (fuel : Nat) (rs : RS) (h : v ≠ .null) :
    ((generate (mkGenerator vars) (fuel + 2) i (.obj [("$option", v)]) rs).2
      = (generate (mkGenerator vars) (fuel + 1) i
          (.obj [("$oneof", .arr [v])]) rs).2
     ∧ Outcome.equivModErr
        (generate (mkGenerator vars) (fuel + 2) i
          (.obj [("$option", v)]) rs).1
        (generate (mkGenerator vars) (fuel + 1) i
          (.obj [("$oneof", .arr [v])]) rs).1)
    ∧ (∀ w rs1,
        generate (mkGenerator vars) fuel i v (rsTail rs) = (.ok w, rs1) →
        generate (mkGenerator vars) (fuel + 2) i (.obj [("$option", v)]) rs
          = (.ok w, rs1)) := by
  have hbr : generate (mkGenerator vars) (fuel + 2) i
      (.obj [("$option", v)]) rs
      = wrapErr ("failed to resolve generator " ++ quoteGo "$option" ++ ": ")
          (generate (mkGenerator vars) (fuel + 1) i
            (.obj [("$oneof", .arr [v])]) rs) := by
    cases v with
    | null => exact absurd rfl h
    | bool b => rfl
    | num n => rfl
    | str s => rfl
    | arr xs => rfl
    | obj kvs => rfl
  refine ⟨⟨?_, ?_⟩, ?_⟩
  · rw [hbr, wrapErr_snd]
  · rw [hbr]
    exact wrapErr_equiv _ _
  · intro w rs1 hw
    have hbr2 : generate (mkGenerator vars) (fuel + 1) i
        (.obj [("$oneof", .arr [v])]) rs
        = wrapErr ("failed to resolve generator " ++ quoteGo "$oneof" ++ ": ")
            (oneofDirective (generate (mkGenerator vars) fuel) i
              (.arr [v]) rs) := rfl
    rw [hbr, hbr2]
    simp only [oneofDirective, randIntN, Nat.mod_one]
    norm_num
    rw [hw]
    rfl

/-- C7 witness: `option` around the number `9` returns `9` (consuming the
`oneof` draw). -/
theorem C7_option_equiv_oneof_witness :
    (JVal.num 9 ≠ JVal.null) ∧
    generate (mkGenerator []) 1 0 (.num 9) (rsTail rs0)
      = (.ok (.num 9), rsTail rs0) ∧
    generate (mkGenerator []) 3 0 (.obj [("$option", .num 9)]) rs0
      = (.ok (.num 9), rsTail rs0) :=
  ⟨by simp, rfl,
   (C7_option_equiv_oneof [] (.num 9) 0 1 rs0 (by simp)).2 (.num 9)
     (rsTail rs0) rfl⟩

theorem genPairsF_no_directive (vars : List (String × JVal)) (gen : GenF)
    (i : Int) :
    ∀ (kvs : List (String × JVal)) (rs : RS) (ps : List (String × JVal))
      (rs2 : RS) (acc : List (String × JVal)),
      (∀ p ∈ kvs, isPredefinedVar (trimPfx "$" p.1) = false) →
      resolvePairsSpec gen i kvs rs = some (ps, rs2) →
      genPairsF (mkGenerator vars) gen i kvs acc rs
        = (.ok (.obj (buildMap acc ps)), rs2) := by
  intro kvs
  induction kvs with
  | nil =>
    intro rs ps rs2 acc _ hs
    simp only [resolvePairsSpec, Option.some.injEq, Prod.mk.injEq] at hs
    obtain ⟨h1, h2⟩ := hs
    subst h1
    subst h2
    simp [genPairsF, buildMap]
  | cons p rest ih =>
    rcases p with ⟨k, v⟩
    intro rs ps rs2 acc hnd hs
    have hk : isPredefinedVar (trimPfx "$" k) = false :=
      hnd (k, v) (by simp)
    simp only [resolvePairsSpec] at hs
    split at hs
    case _ sk rs1 heqk =>
      split at hs
      case _ rv rs3 heqv =>
        split at hs
        case _ ps' rs4 heqr =>
          simp only [Option.some.injEq, Prod.mk.injEq] at hs
          obtain ⟨h1, h2⟩ := hs
          subst h1
          subst h2
          have hpfx : (mkGenerator vars).pfx = "$" := rfl
          simp [genPairsF, hpfx, hk, heqk, heqv]
          rw [ih _ _ _ _ (fun p hp => hnd p (List.mem_cons_of_mem _ hp))
                heqr]
          rfl
        case _ => simp at hs
      case _ => simp at hs
    case _ => simp at hs

/-- C1 amended: in an object, a key whose trimmed form is registered and
which is examined first returns exactly that directive's result, the
remaining keys being ignored (the result does not depend on them); the
full claim fails because keys examined before the directive key are
resolved first and may fail (see the counterexample).  An object none of
whose keys matches a directive resolves every key and value in iteration
order and returns the object rebuilt from the resolved pairs. -/
theorem C1_object_directive_dispatch (vars : List (String × JVal)) (i : Int)
    (fuel : Nat) :
    (∀ (k : String) (v : JVal) (rest rest2 : List (String × JVal)) (rs : RS),
      isPredefinedVar (trimPfx "$" k) = true →
      generate (mkGenerator vars) (fuel + 1) i (.obj ((k, v) :: rest)) rs
        = generate (mkGenerator vars) (fuel + 1) i (.obj ((k, v) :: rest2)) rs)
    ∧ (∀ (k : String) (v : JVal) (rest : List (String × JVal)) (rs : RS)
        (w : JVal) (rs1 : RS),
      isPredefinedVar (trimPfx "$" k) = true →
      resolveVar (mkGenerator vars) fuel i k v rs = (.ok w, rs1) →
      generate (mkGenerator vars) (fuel + 1) i (.obj ((k, v) :: rest)) rs
        = (.ok w, rs1))
    ∧ (∀ (kvs : List (String × JVal)) (rs : RS)
        (ps : List (String × JVal)) (rs2 : RS),
      (∀ p ∈ kvs, isPredefinedVar (trimPfx "$" p.1) = false) →
      resolvePairsSpec (generate (mkGenerator vars) fuel) i kvs rs
        = some (ps, rs2) →
      generate (mkGenerator vars) (fuel + 1) i (.obj kvs) rs
        = (.ok (.obj (buildMap [] ps)), rs2)) := by
  refine ⟨?_, ?_, ?_⟩
  · intro k v rest rest2 rs hk
    show genPairsF (mkGenerator vars) (generate (mkGenerator vars) fuel) i
        ((k, v) :: rest) [] rs
      = genPairsF (mkGenerator vars) (generate (mkGenerator vars) fuel) i
        ((k, v) :: rest2) [] rs
    simp [genPairsF, mkGenerator, hk]
  · intro k v rest rs w rs1 hk hr
    simp only [resolveVar] at hr
    show genPairsF (mkGenerator vars) (generate (mkGenerator vars) fuel) i
        ((k, v) :: rest) [] rs = (.ok w, rs1)
    have hpfx : (mkGenerator vars).pfx = "$" := rfl
    simp only [genPairsF, hpfx, hk, if_true]
    rw [hr]
    rfl
  · intro kvs rs ps rs2 hnd hs
    exact genPairsF_no_directive vars _ i kvs rs ps rs2 [] hnd hs

/-- C1 counterexample: in the object with the pairs
`("x", "$undef")` then `("$i", null)`, exactly one key (`$i`) matches a
registered directive and that directive resolves to the iteration index,
yet resolution of the object fails, because the non-directive key `"x"`
is examined first and its value is an undefined variable — contradicting
that the other keys are ignored and can neither fail nor influence the
result. -/
theorem C1_counterexample :
    isPredefinedVar (trimPfx "$" "$i") = true
    ∧ isPredefinedVar (trimPfx "$" "x") = false
    ∧ resolveVar (mkGenerator []) 1 0 "$i" .null rs0 = (.ok (.num 0), rs0)
    ∧ (generate (mkGenerator []) 2 0
        (.obj [("x", .str "$undef"), ("$i", .null)]) rs0).1.isErr = true :=
  ⟨by decide, by decide, rfl, by decide⟩

/-- C1 witness: the directive key examined first — `{"$i": null, "x": "y"}`
resolves to the iteration index, ignoring the remaining pair. -/
theorem C1_object_directive_dispatch_witness :
    isPredefinedVar (trimPfx "$" "$i") = true ∧
    resolveVar (mkGenerator []) 1 0 "$i" .null rs0 = (.ok (.num 0), rs0) ∧
    generate (mkGenerator []) 2 0 (.obj [("$i", .null), ("x", .str "y")]) rs0
      = (.ok (.num 0), rs0) :=
  ⟨by decide, rfl,
   (C1_object_directive_dispatch [] 0 1).2.1 "$i" .null [("x", .str "y")]
     rs0 (.num 0) rs0 (by decide) rfl⟩

mutual

/-- The spec glossary's notion of a directive token is a reserved name
carrying the `$` marker; this predicate holds when no string anywhere in
the template carries the marker and no arrays occur.  It is the hypothesis
class of the round-trip claim read literally. -/
def noMarkerTokens : JVal → Bool
  | .null => true
  | .bool _ => true
  | .num _ => true
  | .str s => !strHasPfx s "$"
  | .arr _ => false
  | .obj kvs => noMarkerFields kvs

/-- Pointwise `noMarkerTokens` over object fields, keys included. -/
def noMarkerFields : List (String × JVal) → Bool
  | [] => true
  | (k, v) :: rest =>
    !strHasPfx k "$" && noMarkerTokens v && noMarkerFields rest

end

theorem plainStr_gen (vars : List (String × JVal)) (fuel : Nat) (i : Int)
    (s : String) (rs : RS) (h : plainStr s = true) :
    generate (mkGenerator vars) (fuel + 1) i (.str s) rs
      = (.ok (.str s), rs) := by
  simp only [plainStr, Bool.and_eq_true, Bool.not_eq_true'] at h
  obtain ⟨h1, h2⟩ := h
  have ht : trimPfx "$" s = s := by simp [trimPfx, h1]
  have hpfx : (mkGenerator vars).pfx = "$" := rfl
  simp [generate_succ, generateStep, resolveVarF, hpfx, ht, h2,
        defaultVarBranch, h1, wrapErr]

theorem jdepth_le_fields :
    ∀ (kvs : List (String × JVal)) (p : String × JVal), p ∈ kvs →
      jdepth p.2 ≤ jdepthFields kvs := by
  intro kvs
  induction kvs with
  | nil => intro p hp; simp at hp
  | cons q rest ih =>
    rcases q with ⟨k, v⟩
    intro p hp
    rcases List.mem_cons.mp hp with h | h
    · subst h
      simp only [jdepthFields]
      exact le_max_left _ _
    · exact le_trans (ih p h) (by simp only [jdepthFields]; exact le_max_right _ _)

theorem genPairs_plain (vars : List (String × JVal)) (gen : GenF) (i : Int) :
    ∀ (kvs acc : List (String × JVal)) (rs : RS),
      keysDistinct kvs = true → plainFields kvs = true →
      (∀ p ∈ kvs, ∀ rs1, gen i (.str p.1) rs1 = (.ok (.str p.1), rs1)) →
      (∀ p ∈ kvs, ∀ rs1, gen i p.2 rs1 = (.ok p.2, rs1)) →
      (∀ p ∈ kvs, acc.any (fun q => q.1 == p.1) = false) →
      genPairsF (mkGenerator vars) gen i kvs acc rs
        = (.ok (.obj (acc ++ kvs)), rs) := by
  intro kvs
  induction kvs with
  | nil =>
    intro acc rs _ _ _ _ _
    simp [genPairsF]
  | cons p rest ih =>
    rcases p with ⟨k, v⟩
    intro acc rs hdist hflds hgkey hgval hacc
    simp only [plainFields, Bool.and_eq_true] at hflds
    obtain ⟨⟨hpk, hpv⟩, hprest⟩ := hflds
    simp only [keysDistinct, Bool.and_eq_true] at hdist
    obtain ⟨hdk, hdrest⟩ := hdist
    have hk12 := hpk
    simp only [plainStr, Bool.and_eq_true, Bool.not_eq_true'] at hk12
    obtain ⟨hk1, hk2⟩ := hk12
    have ht : trimPfx "$" k = k := by simp [trimPfx, hk1]
    have hpfx : (mkGenerator vars).pfx = "$" := rfl
    have hkeyres := hgkey (k, v) (by simp) rs
    have hvalres := hgval (k, v) (by simp) rs
    have hput : mapPut acc k v = acc ++ [(k, v)] := by
      have hne : acc.any (fun q => q.1 == k) = false := hacc (k, v) (by simp)
      simp [mapPut, hne]
    have hrestall : ∀ p ∈ rest, (p.1 != k) = true := List.all_eq_true.mp hdk
    simp only [genPairsF, hpfx, ht, hk2, Bool.false_eq_true, if_false,
               hkeyres, hvalres, hput]
    rw [ih (acc ++ [(k, v)]) rs hdrest hprest
          (fun p hp => hgkey p (List.mem_cons_of_mem _ hp))
          (fun p hp => hgval p (List.mem_cons_of_mem _ hp))
          ?_]
    · simp
    · intro p hp
      have h1 : acc.any (fun q => q.1 == p.1) = false :=
        hacc p (List.mem_cons_of_mem _ hp)
      have h2 : (k == p.1) = false := by
        have := hrestall p hp
        simp only [bne_iff_ne] at this
        exact beq_eq_false_iff_ne.mpr (Ne.symm this)
      simp [List.any_append, h1, h2]

theorem plainFields_key :
    ∀ (kvs : List (String × JVal)), plainFields kvs = true →
      ∀ p ∈ kvs, plainStr p.1 = true := by
  intro kvs
  induction kvs with
  | nil => intro _ p hp; simp at hp
  | cons q rest ih =>
    rcases q with ⟨k, v⟩
    intro hf p hp
    simp only [plainFields, Bool.and_eq_true] at hf
    obtain ⟨⟨h1, _h2⟩, h3⟩ := hf
    rcases List.mem_cons.mp hp with h | h
    · subst h; exact h1
    · exact ih h3 p h

theorem plainFields_val :
    ∀ (kvs : List (String × JVal)), plainFields kvs = true →
      ∀ p ∈ kvs, plainTemplate p.2 = true := by
  intro kvs
  induction kvs with
  | nil => intro _ p hp; simp at hp
  | cons q rest ih =>
    rcases q with ⟨k, v⟩
    intro hf p hp
    simp only [plainFields, Bool.and_eq_true] at hf
    obtain ⟨⟨_h1, h2⟩, h3⟩ := hf
    rcases List.mem_cons.mp hp with h | h
    · subst h; exact h2
    · exact ih h3 p h

theorem plain_roundtrip (vars : List (String × JVal)) :
    ∀ (fuel : Nat) (t : JVal), plainTemplate t = true → jdepth t ≤ fuel →
      ∀ (i : Int) (rs : RS),
        generate (mkGenerator vars) fuel i t rs = (.ok t, rs) := by
  intro fuel
  induction fuel with
  | zero =>
    intro t hp hd i rs
    exact absurd hd (by have := jdepth_pos t; omega)
  | succ fuel ih =>
    intro t hp hd i rs
    cases t with
    | null => rfl
    | bool b => rfl
    | num n => rfl
    | str s => exact plainStr_gen vars fuel i s rs hp
    | arr xs => exact absurd hp (by simp [plainTemplate])
    | obj kvs =>
      simp only [plainTemplate, Bool.and_eq_true] at hp
      obtain ⟨hdist, hflds⟩ := hp
      have hdf : jdepthFields kvs ≤ fuel := by
        simp only [jdepth] at hd
        omega
      have hfuel1 : 1 ≤ fuel := le_trans (jdepthFields_pos kvs) hdf
      show genPairsF (mkGenerator vars) (generate (mkGenerator vars) fuel) i
          kvs [] rs = (.ok (.obj ([] ++ kvs)), rs)
      apply genPairs_plain vars (generate (mkGenerator vars) fuel) i kvs []
        rs hdist hflds
      · intro p hp rs1
        obtain ⟨fuel1, rfl⟩ : ∃ m, fuel = m + 1 :=
          ⟨fuel - 1, by omega⟩
        exact plainStr_gen vars fuel1 i p.1 rs1
          (plainFields_key kvs hflds p hp)
      · intro p hp rs1
        exact ih p.2 (plainFields_val kvs hflds p hp)
          (le_trans (jdepth_le_fields kvs p hp) hdf) i rs1
      · intro p hp
        simp

/-- C9 counterexample: the template string `"i"` contains no token
carrying the `$` marker and no arrays, yet at iteration 0 it resolves to
the number `0`, not to itself — trimming the marker from `"i"` is the
identity, so the bare registry name still reaches the directive switch. -/
theorem C9_counterexample :
    noMarkerTokens (.str "i") = true
    ∧ (generate (mkGenerator []) 2 0 (.str "i") rs0).1 = .ok (.num 0)
    ∧ Outcome.ok (JVal.num 0) ≠ Outcome.ok (JVal.str "i") :=
  ⟨by decide, rfl, by simp⟩

/-- C9 amended: a template in which no string — key or value — carries the
`$` marker or equals a bare registry name, with no arrays below the top
level and distinct object keys, round-trips unchanged for every iteration
index (given fuel at least the template's object-nesting depth). -/
theorem C9_no_directive_roundtrip (vars : List (String × JVal)) (t : JVal)
    (fuel : Nat) (i : Int) (rs : RS) (h : noNestedArrTpl t = true)
    (hd : jdepth t ≤ fuel) :
    generate (mkGenerator vars) fuel i t rs = (.ok t, rs) := by
  cases t with
  | arr xs =>
    cases fuel with
    | zero => exact absurd hd (by simp [jdepth])
    | succ fuel => rfl
  | null => exact plain_roundtrip vars fuel _ h hd i rs
  | bool b => exact plain_roundtrip vars fuel _ h hd i rs
  | num n => exact plain_roundtrip vars fuel _ h hd i rs
  | str s => exact plain_roundtrip vars fuel _ h hd i rs
  | obj kvs => exact plain_roundtrip vars fuel _ h hd i rs

/-- C9 witness: the object `{"a": "b"}` round-trips at iteration 0. -/
theorem C9_no_directive_roundtrip_witness :
    noNestedArrTpl (.obj [("a", .str "b")]) = true
    ∧ jdepth (.obj [("a", .str "b")]) ≤ 2
    ∧ generate (mkGenerator []) 2 0 (.obj [("a", .str "b")]) rs0
        = (.ok (.obj [("a", .str "b")]), rs0) :=
  ⟨by decide, by decide,
   C9_no_directive_roundtrip [] (.obj [("a", .str "b")]) 2 0 rs0 (by decide)
     (by decide)⟩

